import Mathlib

/-!
Verification development for the workflow-builder repository.

The repository's executable code is a React front end: `App.tsx` mounts a
`WorkflowBuilder` component whose canvas state is two `useState([])` cells
(nodes and edges) rendered through ReactFlow with literal no-op change
handlers.  The orchestration core (validation engine, execution engine,
retry/circuit-breaker controller, state store, event bus, integration
gateway) exists only in the repository's design documents; those components
are modelled here from the specification's words, each such definition
marked `Modelled from the spec:`.
-/

namespace Workflow

/-! ## Front-end embedding (src/components/WorkflowBuilder.tsx, src/App.tsx) -/

/-- A ReactFlow node as held in the `WorkflowBuilder` component's `nodes`
state cell. -/
structure FlowNode where
  id : String
  label : String
deriving DecidableEq, Repr

/-- A ReactFlow edge as held in the `WorkflowBuilder` component's `edges`
state cell. -/
structure FlowEdge where
  id : String
  source : String
  target : String
deriving DecidableEq, Repr

/-- The `WorkflowBuilder` component's state: the two `useState` cells
`nodes` and `edges`. -/
structure CanvasState where
  nodes : List FlowNode
  edges : List FlowEdge
deriving DecidableEq, Repr

/-- The initial canvas state: `useState([])` for nodes and `useState([])`
for edges. -/
def initialCanvasState : CanvasState := { nodes := [], edges := [] }

/-- A change event delivered by ReactFlow to `onNodesChange`. The component
ignores its payload, so the payload is left abstract as a tag. -/
structure NodeChange where
  payload : String
deriving DecidableEq, Repr

/-- A change event delivered by ReactFlow to `onEdgesChange`. -/
structure EdgeChange where
  payload : String
deriving DecidableEq, Repr

/-- The `onNodesChange={() => {}}` handler: it ignores the change and never
calls `setNodes`, so the state is returned unchanged. -/
def onNodesChange (s : CanvasState) (_c : NodeChange) : CanvasState := s

/-- The `onEdgesChange={() => {}}` handler: it ignores the change and never
calls `setEdges`, so the state is returned unchanged. -/
def onEdgesChange (s : CanvasState) (_c : EdgeChange) : CanvasState := s

/-- One interaction event delivered to the canvas: either a node change or
an edge change. -/
inductive CanvasEvent
  | nodeEvent (c : NodeChange)
  | edgeEvent (c : EdgeChange)
deriving DecidableEq, Repr

/-- Apply one canvas event through the component's handlers. -/
def applyEvent (s : CanvasState) (e : CanvasEvent) : CanvasState :=
  match e with
  | CanvasEvent.nodeEvent c => onNodesChange s c
  | CanvasEvent.edgeEvent c => onEdgesChange s c

/-- Apply a sequence of canvas events. -/
def applyEvents (s : CanvasState) (es : List CanvasEvent) : CanvasState :=
  es.foldl applyEvent s

/-- Virtual-DOM tree produced by a render, mirroring the JSX structure of
`WorkflowBuilder` and `App`. -/
inductive VDom
  | divEl (className : String) (children : List VDom)
  | heading (text : String)
  | textEl (text : String)
  | paletteEntry (title : String) (subtitle : String)
  | buttonEl (label : String)
  | reactFlow (nodes : List FlowNode) (edges : List FlowEdge) (children : List VDom)
  | background
  | controls
  | miniMap

/-- One palette card in the left panel. -/
def paletteCard (title subtitle : String) : VDom :=
  VDom.paletteEntry title subtitle

/-- Render of the `WorkflowBuilder` component body: left palette panel,
central ReactFlow canvas fed from the `nodes`/`edges` state with toolbar,
right properties panel. -/
def renderWorkflowBuilder (s : CanvasState) : VDom :=
  VDom.divEl "flex h-full"
    [ VDom.divEl "w-80 bg-white border-r border-gray-200 p-4 overflow-y-auto"
        [ VDom.heading "Node Palette"
        , VDom.divEl "mb-6"
            [ VDom.heading "Triggers"
            , paletteCard "Webhook" "HTTP endpoint trigger"
            , paletteCard "Schedule" "Time-based trigger" ]
        , VDom.divEl "mb-6"
            [ VDom.heading "Actions"
            , paletteCard "HTTP Request" "Make API calls"
            , paletteCard "Email" "Send emails" ]
        , VDom.divEl "mb-6"
            [ VDom.heading "Logic"
            , paletteCard "If/Else" "Conditional logic"
            , paletteCard "Filter" "Data filtering" ] ]
    , VDom.divEl "flex-1 relative"
        [ VDom.reactFlow s.nodes s.edges
            [ VDom.background, VDom.controls, VDom.miniMap ]
        , VDom.divEl "absolute top-4 left-4 z-10 flex space-x-2"
            [ VDom.buttonEl "Run", VDom.buttonEl "Save", VDom.buttonEl "Export" ] ]
    , VDom.divEl "w-80 bg-white border-l border-gray-200 p-4 overflow-y-auto"
        [ VDom.heading "Properties"
        , VDom.textEl "Select a node to configure its properties" ] ]

/-- Render of the `App` component: a full-screen wrapper around
`WorkflowBuilder`. -/
def renderApp (s : CanvasState) : VDom :=
  VDom.divEl "h-screen w-screen bg-gray-50" [renderWorkflowBuilder s]

/-! ## Orchestration-core data model

Modelled from the spec: the orchestration core is described only in the
repository's design documents (README.md, workflow.md); no implementation
exists in the source tree. -/

/-- Modelled from the spec: type tag of a node, a closed set of kinds
(trigger, action, conditional, loop); only the loop kind declares loop
semantics. -/
inductive NodeType
  | trigger
  | action
  | conditional
  | loop
deriving DecidableEq, Repr

/-- Modelled from the spec: a workflow node — identifier unique within a
definition, type tag, parameter mapping, declared input/output arity. -/
structure Node where
  id : Nat
  type : NodeType
  params : List (String × String)
  inputArity : Nat
  outputArity : Nat
deriving DecidableEq, Repr

/-- Modelled from the spec: a connection
(sourceNodeId, sourceOutputIndex) → (targetNodeId, targetInputIndex). -/
structure Connection where
  sourceNodeId : Nat
  sourceOutputIndex : Nat
  targetNodeId : Nat
  targetInputIndex : Nat
deriving DecidableEq, Repr

/-- Modelled from the spec: a workflow definition — identifier, nodes,
connections, schema version. -/
structure WorkflowDefinition where
  id : Nat
  nodes : List Node
  connections : List Connection
  schemaVersion : Nat
deriving DecidableEq, Repr

/-- The node identifiers of a definition. -/
def nodeIds (d : WorkflowDefinition) : List Nat :=
  d.nodes.map (fun n => n.id)

/-- Modelled from the spec: execution status — pending, running, success,
error, cancelled. -/
inductive ExecStatus
  | pending
  | running
  | success
  | error
  | cancelled
deriving DecidableEq, Repr

/-- Modelled from the spec: error-kind classification used by the Gateway
and the retry policy — transient (eligible for retry) or permanent. -/
inductive ErrKind
  | transient
  | permanent
deriving DecidableEq, Repr

/-- Modelled from the spec: an error raised by a node or integration call,
carrying its classification. -/
structure WfError where
  kind : ErrKind
  message : String
deriving DecidableEq, Repr

/-- Modelled from the spec: a per-node result — an output value or an
error. -/
inductive NodeResult
  | output (value : String)
  | failure (e : WfError)
deriving DecidableEq, Repr

/-- Modelled from the spec: per-node progress state within one execution;
cancelled marks nodes that were never dispatched when the execution was
cancelled, skipped marks nodes behind inactive conditional ports. -/
inductive NodeState
  | pending
  | running
  | completed
  | cancelled
  | skipped
deriving DecidableEq, Repr

/-- Modelled from the spec: the ExecutionContext — executionId, workflowId,
status, per-node result mapping, variable scope, start/end timestamps,
retry counters per node; the dispatched list and completion order record
the engine's observable scheduling history. -/
structure ExecutionContext where
  executionId : Nat
  workflowId : Nat
  status : ExecStatus
  results : List (Nat × NodeResult)
  nodeStates : List (Nat × NodeState)
  variableScope : List (String × String)
  startTime : Option Nat
  endTime : Option Nat
  retryCounters : List (Nat × Nat)
  dispatched : List Nat
  completionOrder : List Nat
deriving DecidableEq, Repr

/-- Look up a node's recorded result in a context. -/
def lookupResult (ctx : ExecutionContext) (nodeId : Nat) : Option NodeResult :=
  (ctx.results.find? (fun p => p.1 == nodeId)).map (fun p => p.2)

/-- Look up a node's progress state in a context. -/
def lookupNodeState (ctx : ExecutionContext) (nodeId : Nat) : Option NodeState :=
  (ctx.nodeStates.find? (fun p => p.1 == nodeId)).map (fun p => p.2)

/-! ## State Store -/

/-- Modelled from the spec: the State Store persists serialized
ExecutionContexts keyed by executionId. -/
def StateStore : Type := List (Nat × ExecutionContext)

/-- Modelled from the spec: `save(executionId, context)` — the write
replaces any previous value for that executionId atomically (no partial
write is ever visible). -/
def StateStore.save (st : StateStore) (executionId : Nat) (ctx : ExecutionContext) :
    StateStore :=
  (executionId, ctx) :: List.filter (fun p => p.1 != executionId) st

/-- Modelled from the spec: `load(executionId) -> context or not-found`.
The store is threaded through explicitly to express that a read leaves the
persisted state untouched. -/
def StateStore.load (st : StateStore) (executionId : Nat) :
    Option ExecutionContext × StateStore :=
  ((List.find? (fun p => p.1 == executionId) st).map (fun p => p.2), st)

/-- Modelled from the spec: `delete(executionId)`. -/
def StateStore.removeExecution (st : StateStore) (executionId : Nat) : StateStore :=
  List.filter (fun p => p.1 != executionId) st

/-! ## Retry / Circuit-Breaker Controller -/

/-- Modelled from the spec: a RetryPolicy — maxAttempts, base delay,
backoff multiplier, jitter bound, and the classification of which error
kinds are retryable. -/
structure RetryPolicy where
  maxAttempts : Nat
  baseDelay : Nat
  multiplier : Nat
  jitterBound : Nat
  retryableKinds : List ErrKind
deriving DecidableEq, Repr

/-- Whether an error is classified retryable by the policy. -/
def isRetryable (p : RetryPolicy) (e : WfError) : Bool :=
  p.retryableKinds.contains e.kind

/-- Modelled from the spec: the backoff delay before the retry that follows
the given attempt: base × multiplier^(attempt-1) plus the jitter sample. -/
def backoffDelay (p : RetryPolicy) (attempt : Nat) (jitterSample : Nat) : Nat :=
  p.baseDelay * p.multiplier ^ (attempt - 1) + jitterSample

/-- The observable outcome of `runWithPolicy`: the surfaced result, the
number of attempts performed, and the backoff delay taken before each
retry. -/
structure RunOutcome where
  result : Except WfError String
  attemptsMade : Nat
  delays : List Nat
deriving Repr

/-- Modelled from the spec: the attempt loop of `runWithPolicy`.
`op` gives each attempt's outcome and `jitter` each attempt's random
jitter sample; `remaining` counts the attempts still permitted. On a
retryable failure with attempts remaining, the backoff delay is taken and
the operation retried; exhausting the limit surfaces the last error. -/
def runAttempts (p : RetryPolicy) (op : Nat → Except WfError String)
    (jitter : Nat → Nat) : Nat → Nat → RunOutcome
  | _, 0 =>
    { result := Except.error { kind := ErrKind.permanent, message := "no attempt permitted" }
      attemptsMade := 0
      delays := [] }
  | attempt, 1 => { result := op attempt, attemptsMade := 1, delays := [] }
  | attempt, remaining + 2 =>
    match op attempt with
    | Except.ok v => { result := Except.ok v, attemptsMade := 1, delays := [] }
    | Except.error e =>
      if isRetryable p e then
        let rest := runAttempts p op jitter (attempt + 1) (remaining + 1)
        { result := rest.result
          attemptsMade := rest.attemptsMade + 1
          delays := backoffDelay p attempt (jitter attempt) :: rest.delays }
      else { result := Except.error e, attemptsMade := 1, delays := [] }

/-- Modelled from the spec: `runWithPolicy(operation, RetryPolicy, target)`
— attempts start at 1 and at most maxAttempts are performed. -/
def runWithPolicy (p : RetryPolicy) (op : Nat → Except WfError String)
    (jitter : Nat → Nat) : RunOutcome :=
  runAttempts p op jitter 1 p.maxAttempts

/-- Modelled from the spec: one node executed under its retry policy inside
an execution; a result past the retry limit marks the execution error and
records the node's error in the ExecutionContext. -/
def executeNodeWithPolicy (ctx : ExecutionContext) (nodeId : Nat)
    (p : RetryPolicy) (op : Nat → Except WfError String) (jitter : Nat → Nat) :
    ExecutionContext × RunOutcome :=
  let out := runWithPolicy p op jitter
  match out.result with
  | Except.ok v =>
    ({ ctx with
        results := (nodeId, NodeResult.output v) :: ctx.results
        retryCounters := (nodeId, out.attemptsMade) :: ctx.retryCounters
        completionOrder := ctx.completionOrder ++ [nodeId] }, out)
  | Except.error e =>
    ({ ctx with
        status := ExecStatus.error
        results := (nodeId, NodeResult.failure e) :: ctx.results
        retryCounters := (nodeId, out.attemptsMade) :: ctx.retryCounters }, out)

/-- Modelled from the spec: circuit phases — closed, open (spelled
`opened`), half-open. -/
inductive CircuitPhase
  | closed
  | opened
  | halfOpen
deriving DecidableEq, Repr

/-- Modelled from the spec: per-integration-target CircuitState — phase,
consecutive-failure count, threshold, cool-down duration and the current
cool-down deadline. -/
structure CircuitState where
  phase : CircuitPhase
  failureCount : Nat
  threshold : Nat
  cooldown : Nat
  deadline : Nat
deriving DecidableEq, Repr

/-- Modelled from the spec: the phase observed at call time — an open
circuit whose cool-down deadline has passed is observed half-open, so that
one trial call is allowed. -/
def observePhase (s : CircuitState) (now : Nat) : CircuitPhase :=
  match s.phase with
  | CircuitPhase.opened =>
    if s.deadline ≤ now then CircuitPhase.halfOpen else CircuitPhase.opened
  | ph => ph

/-- The error surfaced when the circuit rejects a call without attempting
the network operation. -/
def circuitRejection : WfError :=
  { kind := ErrKind.transient, message := "circuit open" }

/-- Outcome of one Gateway call through the circuit breaker: the surfaced
result, whether the network operation was actually attempted, and the
successor circuit state. -/
structure CallResult where
  result : Except WfError String
  attemptedNetwork : Bool
  state : CircuitState
deriving Repr

/-- Modelled from the spec: one call to an integration target through the
circuit breaker; `outcome` is what the network operation would return were
it attempted. Consecutive failures count up to the threshold, which flips
the state to open; while open and before the deadline, calls fail
immediately without the network step; the half-open trial's success closes
the circuit and resets the counter, its failure reopens it and restarts
the cool-down. -/
def circuitCall (s : CircuitState) (now : Nat) (outcome : Except WfError String) :
    CallResult :=
  match observePhase s now with
  | CircuitPhase.opened =>
    { result := Except.error circuitRejection, attemptedNetwork := false, state := s }
  | CircuitPhase.closed =>
    match outcome with
    | Except.ok v =>
      { result := Except.ok v, attemptedNetwork := true
        state := { s with failureCount := 0 } }
    | Except.error e =>
      if s.threshold ≤ s.failureCount + 1 then
        { result := Except.error e, attemptedNetwork := true
          state := { s with
            phase := CircuitPhase.opened
            failureCount := s.failureCount + 1
            deadline := now + s.cooldown } }
      else
        { result := Except.error e, attemptedNetwork := true
          state := { s with failureCount := s.failureCount + 1 } }
  | CircuitPhase.halfOpen =>
    match outcome with
    | Except.ok v =>
      { result := Except.ok v, attemptedNetwork := true
        state := { s with phase := CircuitPhase.closed, failureCount := 0 } }
    | Except.error e =>
      { result := Except.error e, attemptedNetwork := true
        state := { s with phase := CircuitPhase.opened, deadline := now + s.cooldown } }

/-- The circuit state after a run of consecutive failed calls at one time
point. -/
def iterateFailures (s : CircuitState) (now : Nat) (e : WfError) : Nat → CircuitState
  | 0 => s
  | n + 1 => (circuitCall (iterateFailures s now e n) now (Except.error e)).state

/-- The circuit state after threshold-many consecutive failed calls. -/
def trippedState (s : CircuitState) (now : Nat) (e : WfError) : CircuitState :=
  iterateFailures s now e s.threshold

/-! ## Graph walks and bounded reachability -/

/-- Walks of positive length in a Bool-valued step relation on node ids,
indexed by their length. -/
inductive WalkLen (r : Nat → Nat → Bool) : Nat → Nat → Nat → Prop
  | single {a b : Nat} : r a b = true → WalkLen r a b 1
  | cons {a b c : Nat} {n : Nat} :
      r a b = true → WalkLen r b c n → WalkLen r a c (n + 1)

/-- Identifiers of the nodes whose type does not declare loop semantics. -/
def nonLoopIds (d : WorkflowDefinition) : List Nat :=
  (d.nodes.filter (fun nd => nd.type != NodeType.loop)).map (fun nd => nd.id)

/-- One step of the connection graph restricted to the definition's
declared nodes: an edge a → b between nodes of the definition. -/
def connStep (d : WorkflowDefinition) (a b : Nat) : Bool :=
  (nodeIds d).contains a && (nodeIds d).contains b &&
    d.connections.any (fun c => c.sourceNodeId == a && c.targetNodeId == b)

/-- One step of the connection graph restricted to non-loop-type nodes:
the graph whose cycles validation must reject. -/
def ncStep (d : WorkflowDefinition) (a b : Nat) : Bool :=
  (nonLoopIds d).contains a && (nonLoopIds d).contains b &&
    d.connections.any (fun c => c.sourceNodeId == a && c.targetNodeId == b)

/-- Nodes of `univ` reachable in one `r`-step from some node of `S`. -/
def stepSet (r : Nat → Nat → Bool) (univ : List Nat) (S : Finset Nat) : Finset Nat :=
  univ.toFinset.filter (fun b => ∃ a ∈ S, r a b = true)

/-- One saturation step of the reachable set. -/
def growStep (r : Nat → Nat → Bool) (univ : List Nat) (S : Finset Nat) : Finset Nat :=
  S ∪ stepSet r univ S

/-- Nodes reachable from `v` by a walk of length between 1 and n + 1. -/
def reachIter (r : Nat → Nat → Bool) (univ : List Nat) (v : Nat) (n : Nat) : Finset Nat :=
  (growStep r univ)^[n] (stepSet r univ {v})

/-- Saturation bound: the number of distinct candidate nodes. -/
def reachBound (univ : List Nat) : Nat := univ.toFinset.card

/-- Nodes reachable from `v` by a walk of positive length: the saturated
reachable set. -/
def boundedReach (r : Nat → Nat → Bool) (univ : List Nat) (v : Nat) : Finset Nat :=
  reachIter r univ v (reachBound univ)

/-- w depends on v when the connection graph has a path from v to w. -/
def dependsOn (d : WorkflowDefinition) (v w : Nat) : Prop :=
  ∃ n, WalkLen (connStep d) v w n

/-- The computed set of nodes depending on v. -/
def dependentsOf (d : WorkflowDefinition) (v : Nat) : Finset Nat :=
  boundedReach (connStep d) (nodeIds d) v

/-! ## Validation Engine -/

/-- Modelled from the spec: finding severity — error, warning, info. -/
inductive Severity
  | error
  | warning
  | info
deriving DecidableEq, Repr

/-- Modelled from the spec: a validation finding — field reference,
severity, message; cycle findings additionally name the participating node
ids. -/
structure Finding where
  fieldRef : String
  severity : Severity
  message : String
  nodeIds : List Nat
deriving DecidableEq, Repr

/-- Modelled from the spec: a ValidationReport is an ordered list of
findings. -/
structure ValidationReport where
  findings : List Finding
deriving DecidableEq, Repr

/-- Check (a): a connection references existing node ids with in-range port
indices. -/
def connectionValid (d : WorkflowDefinition) (c : Connection) : Bool :=
  d.nodes.any (fun nd => nd.id == c.sourceNodeId && c.sourceOutputIndex < nd.outputArity) &&
    d.nodes.any (fun nd => nd.id == c.targetNodeId && c.targetInputIndex < nd.inputArity)

/-- Modelled from the spec: error findings for connections whose endpoints
do not reference existing node ids and in-range port indices. -/
def connectionFindings (d : WorkflowDefinition) : List Finding :=
  (d.connections.filter (fun c => !connectionValid d c)).map (fun c =>
    { fieldRef := "connections", severity := Severity.error
      message := "connection references a missing node or out-of-range port"
      nodeIds := [c.sourceNodeId, c.targetNodeId] })

/-- Modelled from the spec: the required-field schema of each node type. -/
def requiredParams : NodeType → List String
  | NodeType.trigger => ["event"]
  | NodeType.action => ["operation"]
  | NodeType.conditional => ["condition"]
  | NodeType.loop => ["condition"]

/-- Modelled from the spec: error findings for nodes missing a required
parameter of their type's schema. -/
def paramFindings (d : WorkflowDefinition) : List Finding :=
  (d.nodes.filter (fun nd =>
      !(requiredParams nd.type).all (fun k => (nd.params.map Prod.fst).contains k))).map
    (fun nd =>
      { fieldRef := "nodes", severity := Severity.error
        message := "node is missing a required parameter"
        nodeIds := [nd.id] })

/-- Modelled from the spec: the payload type exchanged on a node's ports;
every node kind exchanges JSON payloads. -/
def payloadType : NodeType → String := fun _ => "json"

/-- Check (c): the payload types of two connected ports agree. -/
def portsCompatible (d : WorkflowDefinition) (c : Connection) : Bool :=
  ((d.nodes.find? (fun nd => nd.id == c.sourceNodeId)).map (fun nd => payloadType nd.type)) ==
    ((d.nodes.find? (fun nd => nd.id == c.targetNodeId)).map (fun nd => payloadType nd.type))

/-- Modelled from the spec: error findings for connections whose ports
carry incompatible payload types. -/
def compatFindings (d : WorkflowDefinition) : List Finding :=
  (d.connections.filter (fun c => !portsCompatible d c)).map (fun c =>
    { fieldRef := "connections", severity := Severity.error
      message := "connected ports have incompatible payload types"
      nodeIds := [c.sourceNodeId, c.targetNodeId] })

/-- The non-loop nodes that lie on a cycle of the non-loop connection
graph: those reaching themselves by a walk of positive length. -/
def cycleNodes (d : WorkflowDefinition) : List Nat :=
  (nonLoopIds d).filter (fun v =>
    decide (v ∈ boundedReach (ncStep d) (nonLoopIds d) v))

/-- Modelled from the spec: a cycle among non-loop-type nodes produces an
error finding naming the participating node ids. -/
def cycleFindings (d : WorkflowDefinition) : List Finding :=
  if cycleNodes d = [] then []
  else
    [{ fieldRef := "connections", severity := Severity.error
       message := "cycle among non-loop-type nodes"
       nodeIds := cycleNodes d }]

/-- The node ids reachable from some trigger-type node (the trigger nodes
themselves included). -/
def reachableFromTrigger (d : WorkflowDefinition) (v : Nat) : Bool :=
  d.nodes.any (fun nd =>
    nd.type == NodeType.trigger &&
      (nd.id == v || decide (v ∈ boundedReach (connStep d) (nodeIds d) nd.id)))

/-- Modelled from the spec: warning findings for nodes with no path from
any trigger-type node. -/
def unreachableFindings (d : WorkflowDefinition) : List Finding :=
  ((nodeIds d).filter (fun v => !reachableFromTrigger d v)).map (fun v =>
    { fieldRef := "nodes", severity := Severity.warning
      message := "node is unreachable from every trigger"
      nodeIds := [v] })

/-- Modelled from the spec: `validate(definition) -> ValidationReport`,
running checks (a) connection references, (b) required parameters,
(c) port compatibility, (d) cycles among non-loop nodes, then the
unreachable-node warnings. -/
def validate (d : WorkflowDefinition) : ValidationReport :=
  { findings :=
      connectionFindings d ++ paramFindings d ++ compatFindings d ++
        cycleFindings d ++ unreachableFindings d }

/-- Whether a report contains an error finding; errors block execution. -/
def hasErrors (rep : ValidationReport) : Bool :=
  rep.findings.any (fun f => f.severity == Severity.error)

/-- Modelled from the spec: the Submit API — a definition whose report has
errors is rejected with the report and no execution is created; otherwise
an executionId is returned. -/
def submitDefinition (d : WorkflowDefinition) (input : String) :
    Except ValidationReport Nat :=
  if hasErrors (validate d) then Except.error (validate d)
  else Except.ok (d.id + input.length + 1)

/-! ## Execution Engine scheduler -/

/-- Predecessors of a node per the connection graph. -/
def predsOf (d : WorkflowDefinition) (v : Nat) : List Nat :=
  (d.connections.filter (fun c => c.targetNodeId == v)).map (fun c => c.sourceNodeId)

/-- Modelled from the spec: readiness — a node is ready for dispatch when
every predecessor has completed. -/
def readyNode (d : WorkflowDefinition) (completed : List Nat) (v : Nat) : Bool :=
  (predsOf d v).all (fun p => completed.contains p)

/-- Modelled from the spec: the Kahn-style dispatch loop — repeatedly
dispatch a pending node whose predecessors have all completed, recording
completions newest-first; the loop stops when no node is ready. -/
def scheduleLoop (d : WorkflowDefinition) :
    Nat → List Nat → List Nat → List Nat
  | 0, completedRev, _ => completedRev
  | fuel + 1, completedRev, pending =>
    match pending.find? (readyNode d completedRev) with
    | none => completedRev
    | some v => scheduleLoop d fuel (v :: completedRev) (pending.erase v)

/-- The chronological completion order of an execution of `d`. -/
def completionOrderOf (d : WorkflowDefinition) : List Nat :=
  (scheduleLoop d d.nodes.length [] (nodeIds d)).reverse

/-- Modelled from the spec: executing a definition yields an
ExecutionContext whose completion order is the scheduler's; every
completed node was dispatched, and the run is a success exactly when every
node completed. -/
def runWorkflow (d : WorkflowDefinition) : ExecutionContext :=
  { executionId := d.id
    workflowId := d.id
    status :=
      if (completionOrderOf d).length == d.nodes.length then ExecStatus.success
      else ExecStatus.error
    results := (completionOrderOf d).map (fun v => (v, NodeResult.output "done"))
    nodeStates := (completionOrderOf d).map (fun v => (v, NodeState.completed))
    variableScope := []
    startTime := some 0
    endTime := some (completionOrderOf d).length
    retryCounters := []
    dispatched := completionOrderOf d
    completionOrder := completionOrderOf d }

/-- The completion order seen newest-first respects predecessors: whatever
decomposition is chosen, a node's predecessors all occur later in the
reversed list (that is, earlier chronologically). -/
def respectsRev (d : WorkflowDefinition) (m : List Nat) : Prop :=
  ∀ l1 v l2, m = l1 ++ v :: l2 → ∀ p ∈ predsOf d v, p ∈ l2

/-- Whether the full connection graph of `d` is acyclic: no node reaches
itself by a walk of positive length. -/
def acyclicConnections (d : WorkflowDefinition) : Bool :=
  (nodeIds d).all (fun v => !decide (v ∈ boundedReach (connStep d) (nodeIds d) v))

/-! ## Cancellation -/

/-- Modelled from the spec: cancelling an execution — the status becomes
cancelled, recorded results are kept, every node not yet completed is
marked cancelled, and no further node is dispatched (the dispatched list
is left unchanged). -/
def cancelExecution (ctx : ExecutionContext) : ExecutionContext :=
  { ctx with
    status := ExecStatus.cancelled
    nodeStates := ctx.nodeStates.map (fun p =>
      if p.2 = NodeState.completed then p else (p.1, NodeState.cancelled)) }

/-! ## Validation purity -/

/-- Modelled from the spec: the effectful world the core runs in — the log
of network calls issued through the Integration Gateway. -/
structure GatewayWorld where
  networkCalls : List String
deriving DecidableEq, Repr

/-- Modelled from the spec: issuing a network call appends it to the
world's log. -/
def issueNetworkCall (w : GatewayWorld) (target : String) : GatewayWorld :=
  { w with networkCalls := w.networkCalls ++ [target] }

/-- Modelled from the spec: validation run in the world — it performs only
graph analysis, so it returns the report together with the definition and
the world exactly as given. -/
def validateInWorld (w : GatewayWorld) (d : WorkflowDefinition) :
    ValidationReport × WorkflowDefinition × GatewayWorld :=
  (validate d, d, w)

/-! ## Concrete instances used by witnesses -/

/-- Concrete retry policy for the C3 witness. -/
def retryWitnessPolicy : RetryPolicy :=
  { maxAttempts := 3, baseDelay := 100, multiplier := 2, jitterBound := 50
    retryableKinds := [ErrKind.transient] }

/-- Concrete always-failing operation for the C3 witness. -/
def retryWitnessOp : Nat → Except WfError String :=
  fun _ => Except.error { kind := ErrKind.transient, message := "timeout" }

/-- Concrete jitter samples for the C3 witness. -/
def retryWitnessJitter : Nat → Nat := fun _ => 7

/-- Blank running execution context used by concrete witnesses. -/
def blankContext : ExecutionContext :=
  { executionId := 1, workflowId := 1, status := ExecStatus.running
    results := [], nodeStates := [], variableScope := []
    startTime := some 0, endTime := none, retryCounters := []
    dispatched := [], completionOrder := [] }

/-- Concrete definition with a two-node cycle among action nodes, for the
C1 witness. -/
def cyclicDefinition : WorkflowDefinition :=
  { id := 7
    nodes :=
      [ { id := 1, type := NodeType.action, params := [("operation", "a")]
          inputArity := 1, outputArity := 1 }
      , { id := 2, type := NodeType.action, params := [("operation", "b")]
          inputArity := 1, outputArity := 1 } ]
    connections :=
      [ { sourceNodeId := 1, sourceOutputIndex := 0, targetNodeId := 2, targetInputIndex := 0 }
      , { sourceNodeId := 2, sourceOutputIndex := 0, targetNodeId := 1, targetInputIndex := 0 } ]
    schemaVersion := 1 }

/-- Concrete linear definition 1 → 2 → 3, for the C2 and C6 witnesses. -/
def linearDefinition : WorkflowDefinition :=
  { id := 3
    nodes :=
      [ { id := 1, type := NodeType.trigger, params := [("event", "start")]
          inputArity := 0, outputArity := 1 }
      , { id := 2, type := NodeType.action, params := [("operation", "a")]
          inputArity := 1, outputArity := 1 }
      , { id := 3, type := NodeType.action, params := [("operation", "b")]
          inputArity := 1, outputArity := 1 } ]
    connections :=
      [ { sourceNodeId := 1, sourceOutputIndex := 0, targetNodeId := 2, targetInputIndex := 0 }
      , { sourceNodeId := 2, sourceOutputIndex := 0, targetNodeId := 3, targetInputIndex := 0 } ]
    schemaVersion := 1 }

/-- Concrete mid-run context over `linearDefinition` for the C6 witness:
node 1 has completed with a recorded result, nodes 2 and 3 are pending and
undispatched. -/
def midRunContext : ExecutionContext :=
  { executionId := 9, workflowId := 3, status := ExecStatus.running
    results := [(1, NodeResult.output "ok")]
    nodeStates := [(1, NodeState.completed), (2, NodeState.pending), (3, NodeState.pending)]
    variableScope := []
    startTime := some 0, endTime := none
    retryCounters := []
    dispatched := [1]
    completionOrder := [1] }

/-- Concrete closed circuit state for the C4 witness. -/
def circuitWitnessState : CircuitState :=
  { phase := CircuitPhase.closed, failureCount := 0, threshold := 2
    cooldown := 10, deadline := 0 }

/-- Concrete transient error for the C4 witness. -/
def circuitWitnessError : WfError :=
  { kind := ErrKind.transient, message := "boom" }

end Workflow

namespace Workflow

/-- C8: The WorkflowBuilder component's initial canvas state is empty: on
first render its nodes state and its edges state are both the empty list. -/
theorem initial_canvas_state_empty :
    initialCanvasState.nodes = [] ∧ initialCanvasState.edges = [] :=
  ⟨rfl, rfl⟩

/-- C9: The node-change and edge-change handlers are no-ops: any sequence of
change events delivered through them leaves the state unchanged, so the
canvas graph remains empty after any interaction. -/
theorem handlers_are_noops (es : List CanvasEvent) :
    applyEvents initialCanvasState es = initialCanvasState ∧
    (applyEvents initialCanvasState es).nodes = [] ∧
    (applyEvents initialCanvasState es).edges = [] := by
  have h : ∀ (s : CanvasState) (l : List CanvasEvent), applyEvents s l = s := by
    intro s l
    induction l generalizing s with
    | nil => rfl
    | cons e t ih =>
      cases e with
      | nodeEvent c => simpa [applyEvents, applyEvent, onNodesChange] using ih s
      | edgeEvent c => simpa [applyEvents, applyEvent, onEdgesChange] using ih s
  refine ⟨h _ _, ?_, ?_⟩ <;> rw [h _ _] <;> rfl

/-- C10: Rendering is deterministic: the render of App (and hence of
WorkflowBuilder) is a pure function of the nodes and edges state, so two
renders from the same state produce identical output. -/
theorem render_deterministic (s t : CanvasState)
    (hn : s.nodes = t.nodes) (he : s.edges = t.edges) :
    renderApp s = renderApp t ∧ renderWorkflowBuilder s = renderWorkflowBuilder t := by
  cases s; cases t
  cases hn; cases he
  exact ⟨rfl, rfl⟩

/-! ### Reachability helper lemmas -/

/-- Walks have positive length. -/
theorem walkLen_pos {r : Nat → Nat → Bool} {a b n : Nat}
    (h : WalkLen r a b n) : 1 ≤ n := by
  cases h with
  | single _ => exact Nat.le_refl 1
  | cons _ _ => exact Nat.le_add_left 1 _

/-- The one-step image stays inside the universe. -/
theorem stepSet_subset_univ (r : Nat → Nat → Bool) (univ : List Nat) (S : Finset Nat) :
    stepSet r univ S ⊆ univ.toFinset :=
  Finset.filter_subset _ _

/-- A set is contained in its saturation step. -/
theorem subset_growStep (r : Nat → Nat → Bool) (univ : List Nat) (S : Finset Nat) :
    S ⊆ growStep r univ S :=
  Finset.subset_union_left

/-- The one-step image is monotone. -/
theorem stepSet_mono (r : Nat → Nat → Bool) (univ : List Nat) {S T : Finset Nat}
    (h : S ⊆ T) : stepSet r univ S ⊆ stepSet r univ T := by
  intro b hb
  simp only [stepSet, Finset.mem_filter] at hb ⊢
  obtain ⟨hbu, a, ha, hab⟩ := hb
  exact ⟨hbu, a, h ha, hab⟩

/-- The saturation step is monotone. -/
theorem growStep_mono (r : Nat → Nat → Bool) (univ : List Nat) {S T : Finset Nat}
    (h : S ⊆ T) : growStep r univ S ⊆ growStep r univ T :=
  Finset.union_subset_union h (stepSet_mono r univ h)

/-- Iterating the saturation step is monotone in the starting set. -/
theorem iterate_growStep_mono (r : Nat → Nat → Bool) (univ : List Nat) (k : Nat)
    {S T : Finset Nat} (h : S ⊆ T) :
    (growStep r univ)^[k] S ⊆ (growStep r univ)^[k] T := by
  induction k generalizing S T with
  | zero => simpa using h
  | succ n ih =>
    rw [Function.iterate_succ_apply, Function.iterate_succ_apply]
    exact ih (growStep_mono r univ h)

/-- Unfolding one iteration of the reachable-set computation. -/
theorem reachIter_succ (r : Nat → Nat → Bool) (univ : List Nat) (v : Nat) (n : Nat) :
    reachIter r univ v (n + 1) = growStep r univ (reachIter r univ v n) := by
  rw [reachIter, reachIter, Function.iterate_succ_apply']

/-- The reachable sets stay inside the universe. -/
theorem reachIter_subset_univ (r : Nat → Nat → Bool) (univ : List Nat) (v : Nat) :
    ∀ n, reachIter r univ v n ⊆ univ.toFinset := by
  intro n
  induction n with
  | zero => exact stepSet_subset_univ r univ _
  | succ m ih =>
    rw [reachIter, Function.iterate_succ_apply']
    exact Finset.union_subset ih (stepSet_subset_univ r univ _)

/-- The reachable sets grow along the iteration. -/
theorem reachIter_mono (r : Nat → Nat → Bool) (univ : List Nat) (v : Nat)
    {m n : Nat} (h : m ≤ n) : reachIter r univ v m ⊆ reachIter r univ v n := by
  induction n with
  | zero =>
    have hm : m = 0 := Nat.le_zero.mp h
    rw [hm]
  | succ k ih =>
    rcases Nat.lt_or_ge m (k + 1) with hlt | hge
    · have hsub : reachIter r univ v k ⊆ reachIter r univ v (k + 1) := by
        rw [reachIter, reachIter, Function.iterate_succ_apply']
        exact subset_growStep r univ _
      exact (ih (Nat.lt_succ_iff.mp hlt)).trans hsub
    · have hm : m = k + 1 := Nat.le_antisymm h hge
      rw [hm]

/-- A walk of length n from a node of S lands inside the (n-1)-fold
saturation of the one-step image of S. -/
theorem walk_mem_iterate (r : Nat → Nat → Bool) (univ : List Nat)
    (hr : ∀ a b, r a b = true → b ∈ univ) {a b n : Nat}
    (hw : WalkLen r a b n) :
    ∀ (S : Finset Nat), a ∈ S → b ∈ (growStep r univ)^[n - 1] (stepSet r univ S) := by
  induction hw with
  | single h =>
    intro S haS
    simp only [Nat.sub_self, Function.iterate_zero, id, stepSet, Finset.mem_filter,
      List.mem_toFinset]
    exact ⟨hr _ _ h, _, haS, h⟩
  | cons h hw ih =>
    intro S haS
    rename_i x y c m
    have hx : y ∈ stepSet r univ S := by
      simp only [stepSet, Finset.mem_filter, List.mem_toFinset]
      exact ⟨hr _ _ h, _, haS, h⟩
    have hc := ih (stepSet r univ S) hx
    have hm : 1 ≤ m := walkLen_pos hw
    obtain ⟨t, rfl⟩ : ∃ t, m = t + 1 := ⟨m - 1, (Nat.succ_pred_eq_of_pos hm).symm⟩
    have hsub : (growStep r univ)^[t] (stepSet r univ (stepSet r univ S)) ⊆
        (growStep r univ)^[t] (growStep r univ (stepSet r univ S)) :=
      iterate_growStep_mono r univ _ Finset.subset_union_right
    have heq : (growStep r univ)^[t] (growStep r univ (stepSet r univ S)) =
        (growStep r univ)^[t + 1] (stepSet r univ S) := by
      rw [Function.iterate_succ_apply]
    have hmem : c ∈ (growStep r univ)^[t + 1] (stepSet r univ S) := by
      rw [← heq]
      exact hsub (by simpa using hc)
    simpa using hmem

/-- A walk of length n lands inside the (n-1)-th reachable set. -/
theorem walk_mem_reachIter (r : Nat → Nat → Bool) (univ : List Nat)
    (hr : ∀ a b, r a b = true → b ∈ univ) {a b n : Nat}
    (hw : WalkLen r a b n) : b ∈ reachIter r univ a (n - 1) :=
  walk_mem_iterate r univ hr hw {a} (Finset.mem_singleton_self a)

/-- Once one iteration step adds nothing, the reachable set never grows
again. -/
theorem reachIter_stab (r : Nat → Nat → Bool) (univ : List Nat) (v : Nat) (k : Nat)
    (h : reachIter r univ v k = reachIter r univ v (k + 1)) :
    ∀ m, k ≤ m → reachIter r univ v m = reachIter r univ v k := by
  intro m hm
  induction m with
  | zero =>
    have : k = 0 := Nat.le_zero.mp hm
    rw [this]
  | succ n ih =>
    rcases Nat.lt_or_ge k (n + 1) with hlt | hge
    · have hkn : k ≤ n := Nat.lt_succ_iff.mp hlt
      have hn := ih hkn
      calc reachIter r univ v (n + 1)
          = growStep r univ (reachIter r univ v n) := reachIter_succ r univ v n
        _ = growStep r univ (reachIter r univ v k) := by rw [hn]
        _ = reachIter r univ v (k + 1) := (reachIter_succ r univ v k).symm
        _ = reachIter r univ v k := h.symm
    · have : k = n + 1 := Nat.le_antisymm hm hge
      rw [this]

/-- While every iteration step is strict, cardinality grows at least
linearly. -/
theorem reachIter_card_grow (r : Nat → Nat → Bool) (univ : List Nat) (v : Nat) :
    ∀ n, (∀ j, j < n → reachIter r univ v j ≠ reachIter r univ v (j + 1)) →
      n ≤ (reachIter r univ v n).card := by
  intro n
  induction n with
  | zero => intro _; exact Nat.zero_le _
  | succ m ih =>
    intro hstrict
    have hm : m ≤ (reachIter r univ v m).card :=
      ih (fun j hj => hstrict j (Nat.lt_succ_of_lt hj))
    have hss : reachIter r univ v m ⊂ reachIter r univ v (m + 1) :=
      Finset.ssubset_iff_subset_ne.mpr
        ⟨reachIter_mono r univ v (Nat.le_succ m), hstrict m (Nat.lt_succ_self m)⟩
    have := Finset.card_lt_card hss
    omega

/-- The iteration reaches a fixed point within the saturation bound. -/
theorem exists_reach_fixpoint (r : Nat → Nat → Bool) (univ : List Nat) (v : Nat) :
    ∃ k, k ≤ reachBound univ ∧
      reachIter r univ v k = reachIter r univ v (k + 1) := by
  by_contra hcon
  push_neg at hcon
  have hstrict : ∀ j, j < reachBound univ + 1 →
      reachIter r univ v j ≠ reachIter r univ v (j + 1) := by
    intro j hj
    exact hcon j (Nat.lt_succ_iff.mp hj)
  have hgrow := reachIter_card_grow r univ v (reachBound univ + 1) hstrict
  have hbound : (reachIter r univ v (reachBound univ + 1)).card ≤ reachBound univ :=
    Finset.card_le_card (reachIter_subset_univ r univ v _)
  omega

/-- Every reachable set is contained in the saturated reachable set. -/
theorem reachIter_subset_bounded (r : Nat → Nat → Bool) (univ : List Nat) (v : Nat)
    (n : Nat) : reachIter r univ v n ⊆ boundedReach r univ v := by
  obtain ⟨k, hk, hfix⟩ := exists_reach_fixpoint r univ v
  rcases le_or_lt n (reachBound univ) with h | h
  · exact reachIter_mono r univ v h
  · have h1 : reachIter r univ v n = reachIter r univ v k :=
      reachIter_stab r univ v k hfix n (by omega)
    have h2 : reachIter r univ v (reachBound univ) = reachIter r univ v k :=
      reachIter_stab r univ v k hfix (reachBound univ) hk
    rw [boundedReach, h2, h1]

/-- Completeness of the saturated reachable set: the endpoint of any walk
of positive length is in it. -/
theorem walk_mem_boundedReach (r : Nat → Nat → Bool) (univ : List Nat)
    (hr : ∀ a b, r a b = true → b ∈ univ) {a b n : Nat}
    (hw : WalkLen r a b n) : b ∈ boundedReach r univ a :=
  reachIter_subset_bounded r univ a (n - 1) (walk_mem_reachIter r univ hr hw)

/-- The endpoint of a walk is in the universe of the step relation. -/
theorem walk_end_mem {r : Nat → Nat → Bool} {univ : List Nat}
    (hr : ∀ a b, r a b = true → b ∈ univ) {a b n : Nat} (hw : WalkLen r a b n) :
    b ∈ univ := by
  induction hw with
  | single h => exact hr _ _ h
  | cons h hw ih => exact ih

/-- Targets of the non-loop step relation are non-loop nodes. -/
theorem ncStep_target_mem (d : WorkflowDefinition) :
    ∀ a b, ncStep d a b = true → b ∈ nonLoopIds d := by
  intro a b h
  rw [ncStep, Bool.and_eq_true, Bool.and_eq_true] at h
  exact List.mem_of_elem_eq_true h.1.2

/-- Targets of the connection step relation are declared nodes. -/
theorem connStep_target_mem (d : WorkflowDefinition) :
    ∀ a b, connStep d a b = true → b ∈ nodeIds d := by
  intro a b h
  rw [connStep, Bool.and_eq_true, Bool.and_eq_true] at h
  exact List.mem_of_elem_eq_true h.1.2

/-- C1: a workflow definition whose connection graph has a cycle among
non-loop-type nodes is rejected: validate reports an error finding naming
the participating node ids (every node lying on such a cycle is named),
and submit returns the report instead of creating an execution. -/
theorem cycle_rejected (d : WorkflowDefinition) (input : String) (v n : Nat)
    (hcycle : WalkLen (ncStep d) v v n) :
    (∃ f ∈ (validate d).findings,
      f.severity = Severity.error ∧ f.nodeIds = cycleNodes d) ∧
    v ∈ cycleNodes d ∧
    (∀ w m, WalkLen (ncStep d) w w m → w ∈ cycleNodes d) ∧
    submitDefinition d input = Except.error (validate d) := by
  have hmemCycle : ∀ w m, WalkLen (ncStep d) w w m → w ∈ cycleNodes d := by
    intro w m hw
    have hwin : w ∈ nonLoopIds d := walk_end_mem (ncStep_target_mem d) hw
    have hreach : w ∈ boundedReach (ncStep d) (nonLoopIds d) w :=
      walk_mem_boundedReach (ncStep d) (nonLoopIds d) (ncStep_target_mem d) hw
    simp only [cycleNodes, List.mem_filter, decide_eq_true_eq]
    exact ⟨hwin, hreach⟩
  have hv := hmemCycle v n hcycle
  have hne : cycleNodes d ≠ [] := List.ne_nil_of_mem hv
  have hF : ({ fieldRef := "connections", severity := Severity.error,
               message := "cycle among non-loop-type nodes",
               nodeIds := cycleNodes d } : Finding) ∈ (validate d).findings := by
    simp [validate, cycleFindings, hne]
  refine ⟨⟨_, hF, rfl, rfl⟩, hv, hmemCycle, ?_⟩
  have herr : hasErrors (validate d) = true := by
    rw [hasErrors, List.any_eq_true]
    exact ⟨_, hF, rfl⟩
  simp [submitDefinition, herr]

/-- Witness for C1 at a concrete cyclic definition. -/
theorem cycle_rejected_witness :
    (∃ f ∈ (validate cyclicDefinition).findings,
      f.severity = Severity.error ∧ f.nodeIds = cycleNodes cyclicDefinition) ∧
    1 ∈ cycleNodes cyclicDefinition ∧
    (∀ w m, WalkLen (ncStep cyclicDefinition) w w m → w ∈ cycleNodes cyclicDefinition) ∧
    submitDefinition cyclicDefinition "go" = Except.error (validate cyclicDefinition) :=
  cycle_rejected cyclicDefinition "go" 1 2
    (@WalkLen.cons (ncStep cyclicDefinition) 1 2 1 1 (by decide)
      (WalkLen.single (by decide)))

/-- C7: validate leaves the definition unchanged and produces nothing but
the report: run in the effectful world it returns the world untouched, in
particular its network-call log. -/
theorem validation_pure (w : GatewayWorld) (d : WorkflowDefinition) :
    validateInWorld w d = (validate d, d, w) ∧
    (validateInWorld w d).2.1 = d ∧
    (validateInWorld w d).2.2 = w ∧
    (validateInWorld w d).2.2.networkCalls = w.networkCalls :=
  ⟨rfl, rfl, rfl, rfl⟩

/-- Helper: extending a predecessor-respecting reversed completion list by
a node whose predecessors are all already completed keeps it
predecessor-respecting. -/
theorem respectsRev_cons (d : WorkflowDefinition) (m : List Nat) (v : Nat)
    (hm : respectsRev d m) (hv : ∀ p ∈ predsOf d v, p ∈ m) :
    respectsRev d (v :: m) := by
  intro l1 w l2 heq
  cases l1 with
  | nil =>
    simp only [List.nil_append, List.cons.injEq] at heq
    obtain ⟨hvw, hml⟩ := heq
    subst hvw; subst hml
    exact hv
  | cons a l1' =>
    simp only [List.cons_append, List.cons.injEq] at heq
    exact hm l1' w l2 heq.2

/-- Helper: the dispatch loop preserves the predecessor-respecting
invariant of the reversed completion list, because a node is only
dispatched when every predecessor has already completed. -/
theorem scheduleLoop_respects (d : WorkflowDefinition) :
    ∀ (fuel : Nat) (m pending : List Nat), respectsRev d m →
      respectsRev d (scheduleLoop d fuel m pending) := by
  intro fuel
  induction fuel with
  | zero => intro m pending hm; exact hm
  | succ f ih =>
    intro m pending hm
    rw [scheduleLoop]
    cases hfind : pending.find? (readyNode d m) with
    | none => exact hm
    | some v =>
      have hready : readyNode d m v = true := List.find?_some hfind
      have hpreds : ∀ p ∈ predsOf d v, p ∈ m := by
        intro p hp
        have hall := List.all_eq_true.mp hready p hp
        exact List.mem_of_elem_eq_true hall
      exact ih (v :: m) (pending.erase v) (respectsRev_cons d m v hm hpreds)

/-- C2: in the ExecutionContext produced by executing an acyclic
definition, the recorded completion order is consistent with a topological
order of the connection graph: every node's predecessors complete before
it. -/
theorem completion_respects_preds (d : WorkflowDefinition)
    (hacyclic : acyclicConnections d = true)
    (l1 : List Nat) (v : Nat) (l2 : List Nat)
    (h : (runWorkflow d).completionOrder = l1 ++ v :: l2) :
    ∀ p ∈ predsOf d v, p ∈ l1 := by
  have hresp : respectsRev d (scheduleLoop d d.nodes.length [] (nodeIds d)) := by
    refine scheduleLoop_respects d _ _ _ ?_
    intro l1' w l2' heq
    exact absurd heq (by simp)
  have hco : completionOrderOf d = l1 ++ v :: l2 := h
  have hrev : scheduleLoop d d.nodes.length [] (nodeIds d) =
      l2.reverse ++ v :: l1.reverse := by
    have hcr := congrArg List.reverse hco
    simpa [completionOrderOf, List.reverse_append] using hcr
  intro p hp
  have hmem := hresp l2.reverse v l1.reverse hrev p hp
  simpa using hmem

/-- Witness for C2 at a concrete linear definition 1 → 2 → 3. -/
theorem completion_respects_preds_witness :
    acyclicConnections linearDefinition = true ∧
    (runWorkflow linearDefinition).completionOrder = [1] ++ 2 :: [3] ∧
    (∀ p ∈ predsOf linearDefinition 2, p ∈ [1]) :=
  ⟨by decide, by decide,
    completion_respects_preds linearDefinition (by decide) [1] 2 [3] (by decide)⟩

/-- C5: load performed immediately after save(executionId, context) returns
a value observably equal to context (no partial write visible), and
performing load twice with no intervening writes returns identical
snapshots while leaving the store untouched (idempotent read). -/
theorem store_load_after_save (st : StateStore) (executionId : Nat)
    (ctx : ExecutionContext) :
    (StateStore.load (StateStore.save st executionId ctx) executionId).1 = some ctx ∧
    (∀ (st' : StateStore),
      (StateStore.load st' executionId).2 = st' ∧
      (StateStore.load (StateStore.load st' executionId).2 executionId).1 =
        (StateStore.load st' executionId).1) := by
  constructor
  · simp [StateStore.load, StateStore.save]
  · intro st'
    exact ⟨rfl, rfl⟩

/-- C3: under a RetryPolicy with maxAttempts = 3 whose every attempt fails
with a transient (retryable) error, runWithPolicy performs exactly 3
attempts and surfaces the last error; the enclosing execution reaches
status = error with the node's error recorded; before each retry the delay
equals base × multiplier^(attempt-1) plus jitter within the configured
bound. -/
theorem retry_exhaustion (p : RetryPolicy) (op : Nat → Except WfError String)
    (jitter : Nat → Nat) (ctx : ExecutionContext) (nodeId : Nat)
    (hmax : p.maxAttempts = 3)
    (hclass : p.retryableKinds.contains ErrKind.transient = true)
    (hfail : ∀ i, ∃ m, op i = Except.error { kind := ErrKind.transient, message := m })
    (hjit : ∀ i, jitter i ≤ p.jitterBound) :
    ∃ e : WfError,
      op 3 = Except.error e ∧
      (runWithPolicy p op jitter).result = Except.error e ∧
      (runWithPolicy p op jitter).attemptsMade = 3 ∧
      (runWithPolicy p op jitter).delays =
        [p.baseDelay * p.multiplier ^ 0 + jitter 1,
         p.baseDelay * p.multiplier ^ 1 + jitter 2] ∧
      jitter 1 ≤ p.jitterBound ∧ jitter 2 ≤ p.jitterBound ∧
      (executeNodeWithPolicy ctx nodeId p op jitter).1.status = ExecStatus.error ∧
      lookupResult (executeNodeWithPolicy ctx nodeId p op jitter).1 nodeId =
        some (NodeResult.failure e) := by
  obtain ⟨m1, h1⟩ := hfail 1
  obtain ⟨m2, h2⟩ := hfail 2
  obtain ⟨m3, h3⟩ := hfail 3
  have hrun : runWithPolicy p op jitter =
      { result := op 3
        attemptsMade := 3
        delays := [backoffDelay p 1 (jitter 1), backoffDelay p 2 (jitter 2)] } := by
    have hmem : ErrKind.transient ∈ p.retryableKinds := by
      simpa using hclass
    simp [runWithPolicy, hmax, runAttempts, h1, h2, h3, isRetryable, hmem]
  refine ⟨{ kind := ErrKind.transient, message := m3 }, h3, ?_, ?_, ?_, hjit 1, hjit 2, ?_, ?_⟩
  · rw [hrun]; exact h3
  · rw [hrun]
  · rw [hrun]; simp [backoffDelay]
  · simp [executeNodeWithPolicy, hrun, h3]
  · simp [executeNodeWithPolicy, hrun, h3, lookupResult]

/-- Witness for C3 at a concrete policy, operation and context. -/
theorem retry_exhaustion_witness :
    ∃ e : WfError,
      retryWitnessOp 3 = Except.error e ∧
      (runWithPolicy retryWitnessPolicy retryWitnessOp retryWitnessJitter).result =
        Except.error e ∧
      (runWithPolicy retryWitnessPolicy retryWitnessOp retryWitnessJitter).attemptsMade = 3 ∧
      (runWithPolicy retryWitnessPolicy retryWitnessOp retryWitnessJitter).delays =
        [retryWitnessPolicy.baseDelay * retryWitnessPolicy.multiplier ^ 0 +
          retryWitnessJitter 1,
         retryWitnessPolicy.baseDelay * retryWitnessPolicy.multiplier ^ 1 +
          retryWitnessJitter 2] ∧
      retryWitnessJitter 1 ≤ retryWitnessPolicy.jitterBound ∧
      retryWitnessJitter 2 ≤ retryWitnessPolicy.jitterBound ∧
      (executeNodeWithPolicy blankContext 5 retryWitnessPolicy retryWitnessOp
        retryWitnessJitter).1.status = ExecStatus.error ∧
      lookupResult (executeNodeWithPolicy blankContext 5 retryWitnessPolicy retryWitnessOp
        retryWitnessJitter).1 5 = some (NodeResult.failure e) :=
  retry_exhaustion retryWitnessPolicy retryWitnessOp retryWitnessJitter blankContext 5
    rfl (by decide) (fun _ => ⟨"timeout", rfl⟩) (by intro i; show (7 : Nat) ≤ 50; decide)

/-- Helper: below the threshold, consecutive failures keep the circuit
closed and only count up, leaving threshold, cool-down and deadline
untouched. -/
theorem iterateFailures_closed (s : CircuitState) (now : Nat) (e : WfError)
    (hph : s.phase = CircuitPhase.closed) (k : Nat)
    (hk : s.failureCount + k < s.threshold) :
    (iterateFailures s now e k).phase = CircuitPhase.closed ∧
    (iterateFailures s now e k).failureCount = s.failureCount + k ∧
    (iterateFailures s now e k).threshold = s.threshold ∧
    (iterateFailures s now e k).cooldown = s.cooldown := by
  induction k with
  | zero => exact ⟨hph, rfl, rfl, rfl⟩
  | succ n ih =>
    obtain ⟨hp, hf, ht, hc⟩ := ih (by omega)
    have hobs : observePhase (iterateFailures s now e n) now = CircuitPhase.closed := by
      simp [observePhase, hp]
    have hcond : ¬ s.threshold ≤ s.failureCount + n + 1 := by omega
    refine ⟨?_, ?_, ?_, ?_⟩ <;>
      simp [iterateFailures, circuitCall, hobs, hcond, hp, hf, ht, hc] <;> omega

/-- C4: after threshold-many consecutive failed calls the circuit is open
with its cool-down deadline set; every call before the deadline fails
immediately without attempting the network operation and leaves the state
unchanged; at or after the deadline the circuit is observed half-open and
the one trial call is attempted — its success closes the circuit and
resets the failure counter, its failure reopens it, restarts the
cool-down, and calls before the new deadline again skip the network
step. -/
theorem circuit_breaker (s : CircuitState) (now : Nat) (e : WfError)
    (hph : s.phase = CircuitPhase.closed) (hfc : s.failureCount = 0)
    (hth : 1 ≤ s.threshold) :
    (trippedState s now e).phase = CircuitPhase.opened ∧
    (trippedState s now e).deadline = now + s.cooldown ∧
    (∀ t out, t < now + s.cooldown →
      (circuitCall (trippedState s now e) t out).attemptedNetwork = false ∧
      (circuitCall (trippedState s now e) t out).result = Except.error circuitRejection ∧
      (circuitCall (trippedState s now e) t out).state = trippedState s now e) ∧
    (∀ t, now + s.cooldown ≤ t →
      observePhase (trippedState s now e) t = CircuitPhase.halfOpen ∧
      (∀ v, (circuitCall (trippedState s now e) t (Except.ok v)).attemptedNetwork = true ∧
        (circuitCall (trippedState s now e) t (Except.ok v)).state.phase =
          CircuitPhase.closed ∧
        (circuitCall (trippedState s now e) t (Except.ok v)).state.failureCount = 0) ∧
      (∀ e2,
        (circuitCall (trippedState s now e) t (Except.error e2)).attemptedNetwork = true ∧
        (circuitCall (trippedState s now e) t (Except.error e2)).state.phase =
          CircuitPhase.opened ∧
        (circuitCall (trippedState s now e) t (Except.error e2)).state.deadline =
          t + s.cooldown ∧
        (∀ t2 out2, t2 < t + s.cooldown →
          (circuitCall (circuitCall (trippedState s now e) t (Except.error e2)).state
            t2 out2).attemptedNetwork = false))) := by
  obtain ⟨m, hm⟩ : ∃ m, s.threshold = m + 1 := ⟨s.threshold - 1, by omega⟩
  obtain ⟨hp, hf, ht, hc⟩ := iterateFailures_closed s now e hph m (by omega)
  have hstep : trippedState s now e =
      (circuitCall (iterateFailures s now e m) now (Except.error e)).state := by
    rw [trippedState, hm]; rfl
  have hobs : observePhase (iterateFailures s now e m) now = CircuitPhase.closed := by
    simp [observePhase, hp]
  have hcond :
      (iterateFailures s now e m).threshold ≤
        (iterateFailures s now e m).failureCount + 1 := by
    rw [ht, hf, hfc, hm]; omega
  have htp : (trippedState s now e).phase = CircuitPhase.opened := by
    rw [hstep]; simp [circuitCall, hobs, hcond]
  have htc : (trippedState s now e).cooldown = s.cooldown := by
    rw [hstep]; simp [circuitCall, hobs, hcond, hc]
  have htd : (trippedState s now e).deadline = now + s.cooldown := by
    rw [hstep]; simp [circuitCall, hobs, hcond, hc]
  refine ⟨htp, htd, ?_, ?_⟩
  · intro t out hlt
    have hnotle : ¬ (trippedState s now e).deadline ≤ t := by rw [htd]; omega
    have hobs2 : observePhase (trippedState s now e) t = CircuitPhase.opened := by
      simp [observePhase, htp, hnotle]
    refine ⟨?_, ?_, ?_⟩ <;> simp [circuitCall, hobs2]
  · intro t hge
    have hle : (trippedState s now e).deadline ≤ t := by rw [htd]; omega
    have hobs2 : observePhase (trippedState s now e) t = CircuitPhase.halfOpen := by
      simp [observePhase, htp, hle]
    refine ⟨hobs2, ?_, ?_⟩
    · intro v
      refine ⟨?_, ?_, ?_⟩ <;> simp [circuitCall, hobs2]
    · intro e2
      have hstate : (circuitCall (trippedState s now e) t (Except.error e2)).state =
          { trippedState s now e with
            phase := CircuitPhase.opened
            deadline := t + (trippedState s now e).cooldown } := by
        simp [circuitCall, hobs2]
      refine ⟨by simp [circuitCall, hobs2], by simp [hstate], by simp [hstate, htc], ?_⟩
      intro t2 out2 hlt2
      have hmain : ∀ (X : CircuitState), observePhase X t2 = CircuitPhase.opened →
          (circuitCall X t2 out2).attemptedNetwork = false := by
        intro X hX
        simp [circuitCall, hX]
      refine hmain _ ?_
      rw [hstate]
      have hnotle2 : ¬ t + s.cooldown ≤ t2 := by omega
      simp [observePhase, htc, hnotle2]

/-- Witness for C4 at a concrete circuit state, time and error. -/
theorem circuit_breaker_witness :
    (trippedState circuitWitnessState 100 circuitWitnessError).phase =
      CircuitPhase.opened ∧
    (trippedState circuitWitnessState 100 circuitWitnessError).deadline =
      100 + circuitWitnessState.cooldown :=
  ⟨(circuit_breaker circuitWitnessState 100 circuitWitnessError rfl rfl (by decide)).1,
   (circuit_breaker circuitWitnessState 100 circuitWitnessError rfl rfl (by decide)).2.1⟩

/-- Helper: in the node-state map rewritten by cancellation, a node that
was recorded with a non-completed state is now recorded cancelled. -/
theorem find?_cancel_map (l : List (Nat × NodeState)) (w : Nat) (st : NodeState)
    (h : (l.find? (fun p => p.1 == w)).map (fun p => p.2) = some st)
    (hne : st ≠ NodeState.completed) :
    ((l.map (fun p =>
        if p.2 = NodeState.completed then p else (p.1, NodeState.cancelled))).find?
      (fun p => p.1 == w)).map (fun p => p.2) = some NodeState.cancelled := by
  induction l with
  | nil => simp at h
  | cons x xs ih =>
    obtain ⟨k, s⟩ := x
    by_cases hk : k = w
    · subst hk
      rw [List.find?_cons_of_pos _ (by simp)] at h
      have hs : s = st := by simpa using h
      have hsne : s ≠ NodeState.completed := by rw [hs]; exact hne
      have hhead : (if (k, s).2 = NodeState.completed then (k, s)
          else ((k, s).1, NodeState.cancelled)) = (k, NodeState.cancelled) := by
        simp [hsne]
      simp only [List.map_cons]
      rw [hhead, List.find?_cons_of_pos _ (by simp)]
      simp
    · rw [List.find?_cons_of_neg _ (by simp [hk])] at h
      have hhead1 : (if (k, s).2 = NodeState.completed then (k, s)
          else ((k, s).1, NodeState.cancelled)).1 = k := by
        by_cases hsc : s = NodeState.completed
        · simp [hsc]
        · simp [hsc]
      simp only [List.map_cons]
      rw [List.find?_cons_of_neg _ (by simp [hhead1, hk])]
      exact ih h

/-- Helper: cancellation marks any node recorded with a non-completed
state as cancelled. -/
theorem lookupNodeState_cancel (ctx : ExecutionContext) (w : Nat) (st : NodeState)
    (h : lookupNodeState ctx w = some st) (hne : st ≠ NodeState.completed) :
    lookupNodeState (cancelExecution ctx) w = some NodeState.cancelled :=
  find?_cancel_map ctx.nodeStates w st h hne

/-- C6: cancelling an execution after node a has completed but before node
b has started leaves a's recorded result intact, and b together with every
node depending on b ends in state cancelled without ever being dispatched;
the execution's status becomes cancelled. -/
theorem cancellation_frame (d : WorkflowDefinition) (ctx : ExecutionContext)
    (a b : Nat) (ra : NodeResult)
    (hA : lookupResult ctx a = some ra)
    (hB : lookupNodeState ctx b = some NodeState.pending)
    (hBnotd : b ∉ ctx.dispatched)
    (hdeps : ∀ w ∈ dependentsOf d b,
      lookupNodeState ctx w = some NodeState.pending ∧ w ∉ ctx.dispatched) :
    lookupResult (cancelExecution ctx) a = some ra ∧
    (cancelExecution ctx).status = ExecStatus.cancelled ∧
    lookupNodeState (cancelExecution ctx) b = some NodeState.cancelled ∧
    b ∉ (cancelExecution ctx).dispatched ∧
    (∀ w, dependsOn d b w →
      lookupNodeState (cancelExecution ctx) w = some NodeState.cancelled ∧
      w ∉ (cancelExecution ctx).dispatched) := by
  have hdisp : (cancelExecution ctx).dispatched = ctx.dispatched := rfl
  refine ⟨hA, rfl, ?_, ?_, ?_⟩
  · exact lookupNodeState_cancel ctx b _ hB (by simp)
  · rw [hdisp]; exact hBnotd
  · intro w hw
    obtain ⟨n, hwalk⟩ := hw
    have hmem : w ∈ dependentsOf d b :=
      walk_mem_boundedReach (connStep d) (nodeIds d) (connStep_target_mem d) hwalk
    obtain ⟨hst, hnd⟩ := hdeps w hmem
    refine ⟨lookupNodeState_cancel ctx w _ hst (by simp), ?_⟩
    rw [hdisp]; exact hnd

/-- Witness for C6 at the concrete linear definition and mid-run
context. -/
theorem cancellation_frame_witness :
    lookupResult (cancelExecution midRunContext) 1 = some (NodeResult.output "ok") ∧
    (cancelExecution midRunContext).status = ExecStatus.cancelled ∧
    lookupNodeState (cancelExecution midRunContext) 2 = some NodeState.cancelled ∧
    2 ∉ (cancelExecution midRunContext).dispatched ∧
    (∀ w, dependsOn linearDefinition 2 w →
      lookupNodeState (cancelExecution midRunContext) w = some NodeState.cancelled ∧
      w ∉ (cancelExecution midRunContext).dispatched) :=
  cancellation_frame linearDefinition midRunContext 1 2 (NodeResult.output "ok")
    (by decide) (by decide) (by decide) (by decide)

/-- Witness for C10 at a concrete pair of states with equal fields. -/
theorem render_deterministic_witness :
    ({ nodes := [], edges := [] } : CanvasState).nodes =
      ({ nodes := [], edges := [] } : CanvasState).nodes ∧
    renderApp { nodes := [], edges := [] } = renderApp { nodes := [], edges := [] } :=
  ⟨rfl, (render_deterministic { nodes := [], edges := [] } { nodes := [], edges := [] }
      rfl rfl).1⟩

end Workflow
